import Mathlib

/-!
Shallow embedding of the `openapi_to_fastapi` validator package
(`validator/core.py` and `validator/ihan_standards.py`).

JSON documents decoded by `json.loads` are modelled by the inductive type
`Json`.  Python mappings are association lists in insertion order (parsed
JSON objects have no duplicate keys, so first-match lookup agrees with
Python).  Python truthiness (`if not x`) is modelled by `Json.truthy`, and
Python runtime errors that are not part of the validator's taxonomy
(`AttributeError`, `TypeError`, `KeyError`, uncaught decode errors) are
explicit constructors of `PyErr`, so that every embedded function is a total
function into `Except PyErr _` mirroring the source line by line.
String case mapping is restricted to the ASCII fragment (`Char.toLower`),
which is where the source's `str.lower()` is exercised.
-/

set_option autoImplicit false

instance exceptDecEq {ε α : Type} [DecidableEq ε] [DecidableEq α] :
    DecidableEq (Except ε α) := fun a b =>
  match a, b with
  | .ok x, .ok y => if h : x = y then .isTrue (by rw [h]) else .isFalse (by simp [h])
  | .error x, .error y => if h : x = y then .isTrue (by rw [h]) else .isFalse (by simp [h])
  | .ok _, .error _ => .isFalse (by simp)
  | .error _, .ok _ => .isFalse (by simp)

namespace OpenapiToFastapi

/-- A JSON value as produced by Python's `json.loads`: numbers are modelled
by integers (no claim depends on fractional values). An object keeps its
key/value pairs in insertion order. -/
inductive Json where
  | null : Json
  | bool : Bool → Json
  | num : Int → Json
  | str : String → Json
  | arr : List Json → Json
  | obj : List (String × Json) → Json

/-- Python `s.startswith(p)` on strings, via the character lists (so that concrete
instances evaluate by kernel reduction). -/
def strStartsWith (s p : String) : Bool :=
  p.data.isPrefixOf s.data

/-- ASCII case mapping for Python `s.lower()` as exercised by the source
(header names). -/
def ascii_lower (s : String) : String :=
  String.mk (s.data.map Char.toLower)

/-- Python `s.strip()`: remove whitespace from both ends. -/
def pyStrip (s : String) : String :=
  String.mk (((s.data.dropWhile Char.isWhitespace).reverse.dropWhile
    Char.isWhitespace).reverse)

/-- Splitting the character list of a string at a separator: the accumulator is never
empty, so Python's `"".split(c) == [""]` behaviour is preserved. -/
def splitCharList (c : Char) (l : List Char) : List (List Char) :=
  l.foldr (fun a acc => if a = c then [] :: acc else (a :: acc.headD []) :: acc.tail) [[]]

/-- Python `s.split(c)` for a one-character separator. -/
def pySplit (s : String) (c : Char) : List String :=
  (splitCharList c s.data).map String.mk

namespace Json

/-- Python `j == s` for a string literal `s`: true exactly when `j` is that
string (equality between a string and any other Python value is `False`). -/
def isStrEq (j : Json) (s : String) : Bool :=
  match j with
  | .str t => t = s
  | _ => false

/-- Python truthiness of a JSON value: `None`, `False`, `0`, `""`, `[]` and
`{}` are falsy, everything else is truthy. -/
def truthy : Json → Bool
  | .null => false
  | .bool b => b
  | .num n => n ≠ 0
  | .str s => s ≠ ""
  | .arr xs => !xs.isEmpty
  | .obj kvs => !kvs.isEmpty

/-- Truthiness of a `dict.get` result: Python `None` (for a missing key) is
falsy. -/
def truthyOpt : Option Json → Bool
  | none => false
  | some v => truthy v

end Json

/-- Python exceptions observable from the validator code: the taxonomy of
`OpenApiValidationError` subclasses (with the message where a claim needs
it) plus the builtin errors that untyped attribute access can raise. -/
inductive PyErr where
  | wrongContentType (msg : String)
  | schemaMissing (msg : String)
  | noEndpointsDefined
  | onlyOneEndpointAllowed
  | postMethodIsMissing
  | onlyPostMethodAllowed
  | responseBodyMissing
  | authorizationHeaderMissing
  | authProviderHeaderMissing
  | standardComponentMissing (msg : String)
  | standardContentMissing (msg : String)
  | jsonldError (msg : String)
  | invalidJSON (msg : String)
  | unsupportedVersion
  | attributeError
  | typeError
  | keyError
  | fileNotFoundError
  | jsonDecodeError
  deriving DecidableEq, Repr

/-- Whether a `PyErr` is one of the `OpenApiValidationError` taxonomy kinds
(as opposed to a builtin Python error like `AttributeError`). -/
def PyErr.isTaxonomy : PyErr → Bool
  | .attributeError => false
  | .typeError => false
  | .keyError => false
  | .fileNotFoundError => false
  | .jsonDecodeError => false
  | _ => true

namespace Py

open Json

/-- Python `d.get(k, default)`: only mappings have `.get`; anything else
raises `AttributeError`. -/
def getD (j : Json) (k : String) (d : Json) : Except PyErr Json :=
  match j with
  | .obj kvs => .ok ((kvs.lookup k).getD d)
  | _ => .error .attributeError

/-- Python `d.get(k)` with no default: `none` models the returned `None`. -/
def getOpt (j : Json) (k : String) : Except PyErr (Option Json) :=
  match j with
  | .obj kvs => .ok (kvs.lookup k)
  | _ => .error .attributeError

/-- Python subscript `d[k]` with a string key: `KeyError` when the key is
absent from a mapping, `TypeError` on non-mappings. -/
def getItem (j : Json) (k : String) : Except PyErr Json :=
  match j with
  | .obj kvs =>
    match kvs.lookup k with
    | some v => .ok v
    | none => .error .keyError
  | _ => .error .typeError

/-- Python `len`. -/
def len (j : Json) : Except PyErr Nat :=
  match j with
  | .obj kvs => .ok kvs.length
  | .arr xs => .ok xs.length
  | .str s => .ok s.length
  | _ => .error .typeError

/-- Python `list(x)` / iteration: a mapping yields its keys, a list its
elements, a string its characters (as one-character strings). -/
def toList (j : Json) : Except PyErr (List Json) :=
  match j with
  | .obj kvs => .ok (kvs.map (fun kv => Json.str kv.1))
  | .arr xs => .ok xs
  | .str s => .ok (s.data.map (fun c => Json.str (String.singleton c)))
  | _ => .error .typeError

/-- Python `d.items()`: only on mappings. -/
def items (j : Json) : Except PyErr (List (String × Json)) :=
  match j with
  | .obj kvs => .ok kvs
  | _ => .error .attributeError

/-- Python `s.lower()` restricted to ASCII case mapping; raises
`AttributeError` on non-strings. -/
def lower (j : Json) : Except PyErr String :=
  match j with
  | .str s => .ok (ascii_lower s)
  | _ => .error .attributeError

/-- Python `s.startswith(p)`; raises `AttributeError` on non-strings. -/
def startsWith (j : Json) (p : String) : Except PyErr Bool :=
  match j with
  | .str s => .ok (strStartsWith s p)
  | _ => .error .attributeError

/-- Python `s.split(c)` for a one-character separator; raises
`AttributeError` on non-strings. -/
def split (j : Json) (c : Char) : Except PyErr (List String) :=
  match j with
  | .str s => .ok (pySplit s c)
  | _ => .error .attributeError

end Py

/-! ## `core.py` -/

namespace DefaultValidator

/-- Embeds `DefaultValidator.validate_spec` (core.py lines 56-58):
`if not spec.get("openapi", "").startswith("3"): raise UnsupportedVersion`. -/
def validate_spec (spec : Json) : Except PyErr Unit := do
  let o ← Py.getD spec "openapi" (.str "")
  let b ← Py.startsWith o "3"
  if !b then throw .unsupportedVersion
  return ()

end DefaultValidator

/-! ## `ihan_standards.py` -/

namespace IhanStandards

/-- Embeds `validate_component_schema` (ihan_standards.py lines 67-82). -/
def validate_component_schema (spec : Json) (components_schema : Json) :
    Except PyErr Unit := do
  let content ← Py.getItem spec "content"
  let appJson ← Py.getOpt content "application/json"
  if !Json.truthyOpt appJson then
    throw (.wrongContentType "Model description must be in application/json format")
  let content2 ← Py.getItem spec "content"
  let appJson2 ← Py.getItem content2 "application/json"
  let schema ← Py.getD appJson2 "schema" (.obj [])
  let ref ← Py.getOpt schema "$ref"
  if !Json.truthyOpt ref then
    throw (.schemaMissing "Request or response model is missing from \"schema/$ref\" section")
  let refVal := ref.getD .null
  let sw ← Py.startsWith refVal "#/components/schemas/"
  if !sw then
    throw (.schemaMissing "Request and response models must be defined at\"#/components/schemas/\" section")
  let segs ← Py.split refVal '/'
  let model_name := segs.getLastD ""
  let comp ← Py.getOpt components_schema model_name
  if !Json.truthyOpt comp then
    throw (.schemaMissing ("Component schema is missed for " ++ model_name))
  return ()

/-- Python `methods != ["post"]` (negated): the method list is exactly the
single string `"post"` (line 104). -/
def is_exactly_post (methods : List Json) : Bool :=
  match methods with
  | [m] => m.isStrEq "post"
  | _ => false

/-- The loop `for name, path in paths.items()` of `validate_spec`
(lines 99-106); the accumulator is `post_route`, initially `{}`. -/
def paths_loop : List (String × Json) → Json → Except PyErr Json
  | [], acc => .ok acc
  | (_, path) :: rest, _ => do
    let methods ← Py.toList path
    if !(methods.any (fun m => m.isStrEq "post")) then throw .postMethodIsMissing
    if !(is_exactly_post methods) then throw .onlyPostMethodAllowed
    let pr ← Py.getItem path "post"
    paths_loop rest pr

/-- The comprehension filter `param.get("in") == "header"` (line 123):
`None == "header"` is `False` in Python. -/
def opt_is_header (inv : Option Json) : Bool :=
  match inv with
  | some v => v.isStrEq "header"
  | none => false

/-- The header-name comprehension of `validate_spec` (lines 120-124):
`[param.get("name", "").lower() for param in ... if param.get("in") == "header"]`. -/
def header_names : List Json → Except PyErr (List String)
  | [] => .ok []
  | param :: rest => do
    let inv ← Py.getOpt param "in"
    if opt_is_header inv then
      let nm ← Py.getD param "name" (.str "")
      let s ← Py.lower nm
      let tl ← header_names rest
      return s :: tl
    else
      header_names rest

/-- The response check and header checks of `validate_spec` (lines 115-128). -/
def response_and_headers (post_route : Json) (component_schemas : Json) :
    Except PyErr Unit := do
  let responses ← Py.getD post_route "responses" (.obj [])
  let r200 ← Py.getOpt responses "200"
  let missing ← (do
    if !Json.truthyOpt r200 then
      return true
    else
      let r ← Py.getItem responses "200"
      let c ← Py.getOpt r "content"
      return !Json.truthyOpt c : Except PyErr Bool)
  if missing then throw .responseBodyMissing
  let r ← Py.getItem responses "200"
  validate_component_schema r component_schemas
  let params ← Py.getD post_route "parameters" (.arr [])
  let plist ← Py.toList params
  let headers ← header_names plist
  if !headers.contains "authorization" then throw .authorizationHeaderMissing
  if !headers.contains "x-authorization-provider" then throw .authProviderHeaderMissing
  return ()

/-- Lines 108-118 of `validate_spec`, after `post_route` is computed: the
`components/schemas` check, the conditional request-body check, then the
response and header checks. -/
def after_paths (spec : Json) (post_route : Json) : Except PyErr Unit := do
  let comps ← Py.getD spec "components" (.obj [])
  let cso ← Py.getOpt comps "schemas"
  if !Json.truthyOpt cso then
    throw (.schemaMissing "No \"components/schemas\" section defined")
  let component_schemas := cso.getD .null
  let rb ← Py.getD post_route "requestBody" (.obj [])
  let rbContent ← Py.getOpt rb "content"
  if Json.truthyOpt rbContent then
    let rb2 ← Py.getItem post_route "requestBody"
    validate_component_schema rb2 component_schemas
  response_and_headers post_route component_schemas

/-- Embeds `validate_spec` (ihan_standards.py lines 85-128). -/
def validate_spec (spec : Json) : Except PyErr Unit := do
  let paths ← Py.getD spec "paths" (.obj [])
  if !paths.truthy then throw .noEndpointsDefined
  let n ← Py.len paths
  if n > 1 then throw .onlyOneEndpointAllowed
  let kvs ← Py.items paths
  let post_route ← paths_loop kvs (.obj [])
  after_paths spec post_route

/-- The text contents of the two companion files next to a spec file;
`none` models a file that does not exist. -/
structure CompanionFiles where
  htmlText : Option String
  jsonldText : Option String

/-- Embeds `check_extra_files_exist` (lines 131-147) over the modelled
filesystem.
`parse` stands for `json.loads` (`none` = `JSONDecodeError`) and `stem` for
the spec path without its suffix, so `path.with_suffix(".html")` is
`stem ++ ".html"`. -/
def check_extra_files_exist (parse : String → Option Json) (stem : String)
    (fs : CompanionFiles) : Except PyErr Unit :=
  match fs.htmlText with
  | none => .error (.standardComponentMissing ("Missing " ++ stem ++ ".html"))
  | some t =>
    if pyStrip t = "" then
      .error (.standardContentMissing ("Make sure " ++ stem ++ ".html is not empty"))
    else
      match fs.jsonldText with
      | none => .error (.standardComponentMissing ("Missing " ++ stem ++ ".jsonld"))
      | some jt =>
        match parse jt with
        | none => .error (.jsonldError ("Failed to parse " ++ stem ++ ".jsonld"))
        | some content =>
          if !content.truthy then
            .error (.standardContentMissing ("Make sure " ++ stem ++ ".jsonld is not empty"))
          else .ok ()

/-- Embeds `BaseValidator.validate` (core.py lines 27-32): read the spec file,
parse it (`InvalidJSON` on a parse failure), then run the given
`validate_spec`. `specText` is the spec file's text, `none` when the file
does not exist. -/
def base_validate (parse : String → Option Json) (pathStr : String)
    (specText : Option String) (vspec : Json → Except PyErr Unit) :
    Except PyErr Unit :=
  match specText with
  | none => .error .fileNotFoundError
  | some t =>
    match parse t with
    | none => .error (.invalidJSON ("Incorrect JSON: " ++ pathStr))
    | some spec => vspec spec

/-- Embeds `IhanStandardsValidator.validate` (lines 155-157): the base
JSON-load-and-validate step, then the companion-file checks. -/
def ihan_validate (parse : String → Option Json) (pathStr stem : String)
    (specText : Option String) (fs : CompanionFiles) : Except PyErr Unit :=
  match base_validate parse pathStr specText validate_spec with
  | .ok _ => check_extra_files_exist parse stem fs
  | .error e => .error e

/-- Embeds `looks_like_url` (lines 164-165). -/
def looks_like_url (s : String) : Bool :=
  strStartsWith s "http://" || strStartsWith s "https://"

/-- Embeds `process_dict` (lines 167-172): collect URL-looking string values and
recurse into mapping values only; everything else is skipped. -/
def process_dict : List (String × Json) → List String
  | [] => []
  | (_, Json.str s) :: rest =>
    (if looks_like_url s then [s] else []) ++ process_dict rest
  | (_, Json.obj kvs) :: rest => process_dict kvs ++ process_dict rest
  | _ :: rest => process_dict rest

/-- Embeds `find_urls_in_jsonld` (lines 160-175): read and parse the `.jsonld`
file, collect URLs from it. `process_dict` on a non-mapping document raises
`AttributeError`; the returned Python `set` is the `Finset` of collected
URLs. -/
def find_urls_in_jsonld (parse : String → Option Json) (text : Option String) :
    Except PyErr (Finset String) :=
  match text with
  | none => .error .fileNotFoundError
  | some t =>
    match parse t with
    | none => .error .jsonDecodeError
    | some (Json.obj kvs) => .ok (process_dict kvs).toFinset
    | some _ => .error .attributeError

/-- Embeds `JsonLdUrlValidator.collect_artifacts` (lines 182-184). -/
def collect_artifacts (parse : String → Option Json) (stem : String)
    (jsonldText : Option String) : Except PyErr (String × Finset String) :=
  match find_urls_in_jsonld parse jsonldText with
  | .ok s => .ok (stem ++ ".jsonld", s)
  | .error e => .error e

/-- One `urls_to_jsonld[url].append(json_ld_path)` step on the
insertion-ordered `defaultdict` (line 192). -/
def add_ref (m : List (String × List String)) (u p : String) :
    List (String × List String) :=
  if (m.lookup u).isSome then
    m.map (fun e => if e.1 = u then (e.1, e.2 ++ [p]) else e)
  else m ++ [(u, [p])]

/-- The inversion loop of `run_post_validation` (lines 188-192). An
artifact (a Python `dict` of path to URL set) is modelled as its iteration
list; a URL set is its iteration list, which has no duplicates. -/
def urls_to_jsonld (artifacts : List (List (String × List String))) :
    List (String × List String) :=
  artifacts.foldl
    (fun m a => a.foldl (fun m2 e => e.2.foldl (fun m3 u => add_ref m3 u e.1) m2) m) []

/-- The report line appended for one unreachable URL (lines 199-200). -/
def fail_line (u : String) (ps : List String) : String :=
  "Failed to fetch " ++ u ++ " (found in " ++ String.intercalate ", " ps ++ ")\n"

/-- One iteration of the probing loop (lines 196-200): the `try`-body runs
the injected fetch capability (`requests.get(url).raise_for_status()`) and
the `except Exception` branch turns any raised exception into a report
line. -/
def probe_step {ε : Type} (probe : String → Except ε Unit) (acc u : String)
    (ps : List String) : Except ε String :=
  match probe u with
  | .ok _ => .ok acc
  | .error _ => .ok (acc ++ fail_line u ps)

/-- The probing loop of `run_post_validation` (lines 195-200), threading the
growing `error_message`. -/
def probe_loop {ε : Type} (probe : String → Except ε Unit) :
    List (String × List String) → String → Except ε String
  | [], acc => .ok acc
  | (u, ps) :: rest, acc =>
    match probe_step probe acc u ps with
    | .ok acc2 => probe_loop probe rest acc2
    | .error e => .error e

/-- Embeds `JsonLdUrlValidator.run_post_validation` (lines 186-202):
`return error_message or None`. -/
def run_post_validation {ε : Type} (probe : String → Except ε Unit)
    (artifacts : List (List (String × List String))) : Except ε (Option String) :=
  match probe_loop probe (urls_to_jsonld artifacts) "" with
  | .ok msg => .ok (if msg = "" then none else some msg)
  | .error e => .error e

end IhanStandards

/-! ## Definitions stated from the claims' wording, for comparison with the
source functions -/

open IhanStandards

/-- Modelled from the spec: the HTTP method names an OpenAPI path item can
carry (the "another HTTP method" of claim C2). -/
def httpMethodNames : List String :=
  ["get", "put", "post", "delete", "options", "head", "patch", "trace"]

/-- Claim C8's wording of the skip: the tail of `validate_spec` (lines
108-128) with the request-body component-schema check left out entirely,
proceeding directly to the response check. -/
def after_paths_skipping_request_body (spec : Json) (post_route : Json) :
    Except PyErr Unit := do
  let comps ← Py.getD spec "components" (.obj [])
  let cso ← Py.getOpt comps "schemas"
  if !Json.truthyOpt cso then
    throw (.schemaMissing "No \"components/schemas\" section defined")
  response_and_headers post_route (cso.getD .null)

/-- Claim C7's wording of the walk: a URL-looking string value reachable
from a mapping's entries by descending only through mapping values (never
through arrays). -/
inductive ReachableIn : List (String × Json) → String → Prop where
  | here {kvs : List (String × Json)} {k s : String} :
      (k, Json.str s) ∈ kvs → looks_like_url s = true → ReachableIn kvs s
  | nest {kvs kvs' : List (String × Json)} {k u : String} :
      (k, Json.obj kvs') ∈ kvs → ReachableIn kvs' u → ReachableIn kvs u

/-- Claim C4's wording: every companion-file path whose artifact contains
the URL `u`, in artifact order. -/
def referencing_paths (u : String)
    (artifacts : List (List (String × List String))) : List String :=
  artifacts.flatMap (fun a => (a.filter (fun e => e.2.contains u)).map Prod.fst)

/-- The stream of `urls_to_jsonld[url].append(path)` actions performed by
the three nested loops of `run_post_validation`, flattened in execution
order. -/
def url_actions (artifacts : List (List (String × List String))) :
    List (String × String) :=
  artifacts.flatMap (fun a => a.flatMap (fun e => e.2.map (fun u => (u, e.1))))

/-- The paths appended for the URL `v` by a stream of append actions. -/
def contrib (v : String) (acts : List (String × String)) : List String :=
  (acts.filter (fun x => x.1 == v)).map Prod.snd

/-- Whether probing a URL succeeds (the `try` body raises no exception). -/
def probe_ok {ε : Type} (probe : String → Except ε Unit) (u : String) : Bool :=
  match probe u with
  | .ok _ => true
  | .error _ => false

/-- The aggregate report text: one `fail_line` per entry whose probe
fails, in iteration order. -/
def report_str {ε : Type} (probe : String → Except ε Unit) :
    List (String × List String) → String
  | [] => ""
  | e :: rest =>
    (match probe e.1 with
     | .ok _ => ""
     | .error _ => fail_line e.1 e.2) ++ report_str probe rest

/-- Claim C9's case-variant renaming on one parameter object: either the
value is unchanged, or one `"name"` entry's string value is replaced by a
string with the same lowercase form. -/
inductive ParamCaseVariant : Json → Json → Prop where
  | refl (j : Json) : ParamCaseVariant j j
  | rename (pre post : List (String × Json)) (s t : String)
      (h : ascii_lower s = ascii_lower t) :
      ParamCaseVariant (.obj (pre ++ ("name", .str s) :: post))
        (.obj (pre ++ ("name", .str t) :: post))

/-- A spec document holding a single path whose item's only key is `post`,
with the post operation's `parameters` exposed (claim C9's family of
documents). -/
def spec_with_params (n : String) (skvs pr : List (String × Json))
    (params : List Json) : Json :=
  .obj (("paths", .obj [(n, .obj [("post",
    .obj (("parameters", .arr params) :: pr))])]) :: skvs)

/-- Concatenation of a list of report lines. -/
def str_concat (l : List String) : String :=
  l.foldr (fun a b => a ++ b) ""

/-- Claim C4's wording of the batch result: `none` when every probe of a
distinct URL succeeded, otherwise the report holding one line per failing
URL, naming it together with every companion-file path that references it
(in artifact order); only the order of the lines comes from the probing
order. -/
def expected_report {ε : Type} (probe : String → Except ε Unit)
    (artifacts : List (List (String × List String))) : Option String :=
  let fails := ((urls_to_jsonld artifacts).map Prod.fst).filter
    (fun u => !probe_ok probe u)
  if fails = [] then none
  else some (str_concat (fails.map
    (fun u => fail_line u (referencing_paths u artifacts))))

/-! ## Theorems for the claims -/

/-- Claim C1, counterexample: a `content` mapping that does contain an
`application/json` entry, but an empty (Python-falsy) one, still makes
`validate_component_schema` raise `WrongContentType`, while the claim's
condition chain ("WrongContentType when there is no application/json
entry; otherwise SchemaMissing when the schema has no $ref") predicts
`SchemaMissing` here. -/
theorem claim1_counterexample :
    ([("application/json", Json.obj [])].lookup "application/json"
      = some (Json.obj [])) ∧
    validate_component_schema
      (.obj [("content", .obj [("application/json", .obj [])])])
      (.obj [("M", .str "x")]) =
      .error (.wrongContentType
        "Model description must be in application/json format") :=
  ⟨rfl, rfl⟩

/-- Claim C1, amended: with Python truthiness in place of bare existence —
`validate_component_schema` raises `WrongContentType` when the content's
`application/json` entry is missing or falsy; otherwise `SchemaMissing`
(no `$ref`) when the entry's `schema.$ref` is missing or falsy; otherwise
`SchemaMissing` (wrong location) when the ref does not start with
`#/components/schemas/`; otherwise `SchemaMissing` (component not found)
when `components.schemas` has no truthy entry under the last `/`-segment
of the ref; otherwise it succeeds.  Stated for the shapes the claim is
about: the mentioned inner values are mappings and the `$ref` a string. -/
theorem claim1_component_schema_order (ro c cs : List (String × Json))
    (hc : ro.lookup "content" = some (.obj c)) :
    (Json.truthyOpt (c.lookup "application/json") = false →
      validate_component_schema (.obj ro) (.obj cs) =
        .error (.wrongContentType
          "Model description must be in application/json format")) ∧
    (∀ eo so, c.lookup "application/json" = some (.obj eo) → eo ≠ [] →
      (eo.lookup "schema").getD (.obj []) = .obj so →
      Json.truthyOpt (so.lookup "$ref") = false →
      validate_component_schema (.obj ro) (.obj cs) =
        .error (.schemaMissing
          "Request or response model is missing from \"schema/$ref\" section")) ∧
    (∀ eo so r, c.lookup "application/json" = some (.obj eo) → eo ≠ [] →
      (eo.lookup "schema").getD (.obj []) = .obj so →
      so.lookup "$ref" = some (.str r) → r ≠ "" →
      strStartsWith r "#/components/schemas/" = false →
      validate_component_schema (.obj ro) (.obj cs) =
        .error (.schemaMissing
          "Request and response models must be defined at\"#/components/schemas/\" section")) ∧
    (∀ eo so r, c.lookup "application/json" = some (.obj eo) → eo ≠ [] →
      (eo.lookup "schema").getD (.obj []) = .obj so →
      so.lookup "$ref" = some (.str r) → r ≠ "" →
      strStartsWith r "#/components/schemas/" = true →
      Json.truthyOpt (cs.lookup ((pySplit r '/').getLastD "")) = false →
      validate_component_schema (.obj ro) (.obj cs) =
        .error (.schemaMissing
          ("Component schema is missed for " ++ (pySplit r '/').getLastD ""))) ∧
    (∀ eo so r, c.lookup "application/json" = some (.obj eo) → eo ≠ [] →
      (eo.lookup "schema").getD (.obj []) = .obj so →
      so.lookup "$ref" = some (.str r) → r ≠ "" →
      strStartsWith r "#/components/schemas/" = true →
      Json.truthyOpt (cs.lookup ((pySplit r '/').getLastD "")) = true →
      validate_component_schema (.obj ro) (.obj cs) = .ok ()) := by
  refine ⟨?_, ?_, ?_, ?_, ?_⟩
  · intro h
    simp [validate_component_schema, Py.getItem, Py.getOpt, hc, h, bind,
      Except.bind, throw, throwThe, MonadExceptOf.throw, pure, Except.pure]
  · intro eo so h1 h2 h3 h4
    simp_all [validate_component_schema, Py.getItem, Py.getOpt, Py.getD, bind,
      Except.bind, throw, throwThe, MonadExceptOf.throw, pure, Except.pure,
      Json.truthyOpt, Json.truthy]
  · intro eo so r h1 h2 h3 h4 h5 h6
    simp_all [validate_component_schema, Py.getItem, Py.getOpt, Py.getD,
      Py.startsWith, bind, Except.bind, throw, throwThe, MonadExceptOf.throw,
      pure, Except.pure, Json.truthyOpt, Json.truthy]
  · intro eo so r h1 h2 h3 h4 h5 h6 h7
    simp_all [validate_component_schema, Py.getItem, Py.getOpt, Py.getD,
      Py.startsWith, Py.split, bind, Except.bind, throw, throwThe,
      MonadExceptOf.throw, pure, Except.pure, Json.truthyOpt, Json.truthy,
      List.getLastD_eq_getLast?]
  · intro eo so r h1 h2 h3 h4 h5 h6 h7
    simp_all [validate_component_schema, Py.getItem, Py.getOpt, Py.getD,
      Py.startsWith, Py.split, bind, Except.bind, throw, throwThe,
      MonadExceptOf.throw, pure, Except.pure, Json.truthyOpt, Json.truthy,
      List.getLastD_eq_getLast?]

/-- Witness for `claim1_component_schema_order` at a concrete well-formed
request body and component table. -/
theorem claim1_component_schema_order_witness :
    validate_component_schema
      (.obj [("content", .obj [("application/json",
        .obj [("schema", .obj [("$ref", .str "#/components/schemas/M")])])])])
      (.obj [("M", .obj [("type", .str "object")])]) = .ok () :=
  (claim1_component_schema_order
      [("content", .obj [("application/json",
        .obj [("schema", .obj [("$ref", .str "#/components/schemas/M")])])])]
      [("application/json",
        .obj [("schema", .obj [("$ref", .str "#/components/schemas/M")])])]
      [("M", .obj [("type", .str "object")])] rfl).2.2.2.2
    [("schema", .obj [("$ref", .str "#/components/schemas/M")])]
    [("$ref", .str "#/components/schemas/M")]
    "#/components/schemas/M" rfl (by simp) rfl rfl (by decide) rfl rfl

/-- Claim C8: when the post operation has no `requestBody` key at all, or a
`requestBody` mapping without a `content` key, the tail of `validate_spec`
behaves exactly as if the request-body component-schema check were absent:
no error can arise from it and validation proceeds to the response check. -/
theorem claim8_request_body_optional (spec : Json) (pr : List (String × Json))
    (h : pr.lookup "requestBody" = none ∨
      ∃ ro, pr.lookup "requestBody" = some (.obj ro) ∧ ro.lookup "content" = none) :
    after_paths spec (.obj pr) = after_paths_skipping_request_body spec (.obj pr) := by
  unfold after_paths after_paths_skipping_request_body
  simp only [bind, Except.bind]
  cases hc : Py.getD spec "components" (.obj []) with
  | error e => rfl
  | ok comps =>
    cases ho : Py.getOpt comps "schemas" with
    | error e => simp [ho]
    | ok cso =>
      by_cases ht : Json.truthyOpt cso = true
      · rcases h with h | ⟨ro, hro, hcont⟩
        · simp [Py.getD, Py.getOpt, h, ho, ht, bind, Except.bind, throw,
            throwThe, MonadExceptOf.throw, pure, Except.pure, Json.truthyOpt]
        · simp [Py.getD, Py.getOpt, hro, hcont, ho, ht, bind, Except.bind,
            throw, throwThe, MonadExceptOf.throw, pure, Except.pure,
            Json.truthyOpt]
      · rw [Bool.not_eq_true] at ht
        simp [ho, ht, throw, throwThe, MonadExceptOf.throw]

/-- Witness for `claim8_request_body_optional`: a post operation without a
`requestBody` key. -/
theorem claim8_request_body_optional_witness :
    after_paths
      (.obj [("components", .obj [("schemas", .obj [("M", .str "x")])])])
      (.obj [("responses", .obj [])]) =
    after_paths_skipping_request_body
      (.obj [("components", .obj [("schemas", .obj [("M", .str "x")])])])
      (.obj [("responses", .obj [])]) :=
  claim8_request_body_optional
    (.obj [("components", .obj [("schemas", .obj [("M", .str "x")])])])
    [("responses", .obj [])] (Or.inl rfl)

/-- Python `"post" in methods` over the key list of a path item, as a membership
statement on the keys. -/
theorem any_post_iff (pkvs : List (String × Json)) :
    ((pkvs.map (fun kv => Json.str kv.1)).any (fun m => m.isStrEq "post") = true) ↔
      "post" ∈ pkvs.map Prod.fst := by
  induction pkvs with
  | nil => simp
  | cons kv rest ih =>
    have hhead : ((Json.str kv.1).isStrEq "post" = true) ↔ "post" = kv.1 := by
      simp [Json.isStrEq, eq_comm]
    rw [List.map_cons, List.any_cons, Bool.or_eq_true, ih, hhead, List.map_cons,
      List.mem_cons]

/-- Python `methods == ["post"]` over the key list of a path item. -/
theorem is_exactly_post_iff (pkvs : List (String × Json)) :
    (is_exactly_post (pkvs.map (fun kv => Json.str kv.1)) = true) ↔
      pkvs.map Prod.fst = ["post"] := by
  cases pkvs with
  | nil => simp [is_exactly_post]
  | cons kv rest =>
    cases rest with
    | nil => simp [is_exactly_post, Json.isStrEq]
    | cons kv2 rest2 => simp [is_exactly_post]

/-- Claim C2, counterexample: a single path item with keys `post` and
`summary` defines no HTTP method besides `post`, yet `validate_spec`
raises `OnlyPostMethodAllowed`, so "raises OnlyPostMethodAllowed exactly
when the path item defines another HTTP method besides post" is false. -/
theorem claim2_counterexample :
    validate_spec (.obj [("paths", .obj [("/pets",
      .obj [("post", .obj []), ("summary", .str "desc")])])]) =
      .error .onlyPostMethodAllowed ∧
    "summary" ∉ httpMethodNames :=
  ⟨rfl, by decide⟩

/-- Claim C2, amended: for a spec with a single path entry, `validate_spec`
raises `PostMethodIsMissing` when the path item has no `post` key;
otherwise it raises `OnlyPostMethodAllowed` exactly when the item has any
key besides `post` (an HTTP method or not); when `post` is the only key,
this step passes and validation proceeds with that post operation. -/
theorem claim2_single_path_method_check (skvs pkvs : List (String × Json))
    (n : String) (hp : skvs.lookup "paths" = some (.obj [(n, .obj pkvs)])) :
    ("post" ∉ pkvs.map Prod.fst →
      validate_spec (.obj skvs) = .error .postMethodIsMissing) ∧
    ("post" ∈ pkvs.map Prod.fst → pkvs.map Prod.fst ≠ ["post"] →
      validate_spec (.obj skvs) = .error .onlyPostMethodAllowed) ∧
    (∀ v, pkvs = [("post", v)] →
      validate_spec (.obj skvs) = after_paths (.obj skvs) v) := by
  refine ⟨?_, ?_, ?_⟩
  · intro h
    have hany := (any_post_iff pkvs).not.mpr h
    rw [Bool.not_eq_true] at hany
    simp [validate_spec, Py.getD, Py.len, Py.items, Py.toList, hp, bind,
      Except.bind, throw, throwThe, MonadExceptOf.throw, pure, Except.pure,
      Json.truthy, paths_loop, hany]
  · intro h1 h2
    have hany := (any_post_iff pkvs).mpr h1
    have hex := (is_exactly_post_iff pkvs).not.mpr h2
    rw [Bool.not_eq_true] at hex
    simp [validate_spec, Py.getD, Py.len, Py.items, Py.toList, hp, bind,
      Except.bind, throw, throwThe, MonadExceptOf.throw, pure, Except.pure,
      Json.truthy, paths_loop, hany, hex]
  · intro v hv
    subst hv
    simp [validate_spec, Py.getD, Py.len, Py.items, Py.toList, Py.getItem, hp,
      bind, Except.bind, throw, throwThe, MonadExceptOf.throw, pure,
      Except.pure, Json.truthy, paths_loop, Json.isStrEq, is_exactly_post]

/-- Witness for `claim2_single_path_method_check` at a concrete spec whose
single path item has `post` as its only key. -/
theorem claim2_single_path_method_check_witness :
    validate_spec (.obj [("paths", .obj [("/pets", .obj [("post", .obj [])])])]) =
      after_paths
        (.obj [("paths", .obj [("/pets", .obj [("post", .obj [])])])])
        (.obj []) :=
  (claim2_single_path_method_check
      [("paths", .obj [("/pets", .obj [("post", .obj [])])])]
      [("post", .obj [])] "/pets" rfl).2.2 (.obj []) rfl

/-- Claim C6: `IhanStandardsValidator.validate` runs the companion-file
checks only when the base JSON-load-and-validate step succeeded (any base
error is returned unchanged, untouched by the filesystem state), and the
companion checks settle in order: missing `<stem>.html`
(`StandardComponentMissing`), blank-after-trim `<stem>.html`
(`StandardContentMissing`), missing `<stem>.jsonld`
(`StandardComponentMissing`), unparsable `<stem>.jsonld` (`JSONLDError`),
and JSON-falsy `<stem>.jsonld` content (`StandardContentMissing`);
otherwise validation succeeds. -/
theorem claim6_companion_file_checks :
    (∀ parse pathStr stem text fs e,
      base_validate parse pathStr text validate_spec = .error e →
      ihan_validate parse pathStr stem text fs = .error e) ∧
    (∀ parse pathStr stem text fs,
      base_validate parse pathStr text validate_spec = .ok () →
      ihan_validate parse pathStr stem text fs =
        check_extra_files_exist parse stem fs) ∧
    (∀ parse stem fs, fs.htmlText = none →
      check_extra_files_exist parse stem fs =
        .error (.standardComponentMissing ("Missing " ++ stem ++ ".html"))) ∧
    (∀ parse stem fs t, fs.htmlText = some t → pyStrip t = "" →
      check_extra_files_exist parse stem fs =
        .error (.standardContentMissing
          ("Make sure " ++ stem ++ ".html is not empty"))) ∧
    (∀ parse stem fs t, fs.htmlText = some t → pyStrip t ≠ "" →
      fs.jsonldText = none →
      check_extra_files_exist parse stem fs =
        .error (.standardComponentMissing ("Missing " ++ stem ++ ".jsonld"))) ∧
    (∀ parse stem fs t jt, fs.htmlText = some t → pyStrip t ≠ "" →
      fs.jsonldText = some jt → parse jt = none →
      check_extra_files_exist parse stem fs =
        .error (.jsonldError ("Failed to parse " ++ stem ++ ".jsonld"))) ∧
    (∀ parse stem fs t jt c, fs.htmlText = some t → pyStrip t ≠ "" →
      fs.jsonldText = some jt → parse jt = some c → Json.truthy c = false →
      check_extra_files_exist parse stem fs =
        .error (.standardContentMissing
          ("Make sure " ++ stem ++ ".jsonld is not empty"))) ∧
    (∀ parse stem fs t jt c, fs.htmlText = some t → pyStrip t ≠ "" →
      fs.jsonldText = some jt → parse jt = some c → Json.truthy c = true →
      check_extra_files_exist parse stem fs = .ok ()) := by
  refine ⟨?_, ?_, ?_, ?_, ?_, ?_, ?_, ?_⟩
  · intro parse pathStr stem text fs e h
    simp [ihan_validate, h]
  · intro parse pathStr stem text fs h
    simp [ihan_validate, h]
  · intro parse stem fs h
    simp [check_extra_files_exist, h]
  · intro parse stem fs t h1 h2
    simp [check_extra_files_exist, h1, h2]
  · intro parse stem fs t h1 h2 h3
    simp [check_extra_files_exist, h1, h2, h3]
  · intro parse stem fs t jt h1 h2 h3 h4
    simp [check_extra_files_exist, h1, h2, h3, h4]
  · intro parse stem fs t jt c h1 h2 h3 h4 h5
    simp [check_extra_files_exist, h1, h2, h3, h4, h5]
  · intro parse stem fs t jt c h1 h2 h3 h4 h5
    simp [check_extra_files_exist, h1, h2, h3, h4, h5]

/-- Witness for `claim6_companion_file_checks`: a present non-blank html
file and a present, parsable, non-empty jsonld file pass the checks. -/
theorem claim6_companion_file_checks_witness :
    check_extra_files_exist (fun _ => some (.obj [("a", .str "b")])) "spec"
      ⟨some "hello", some "x"⟩ = .ok () :=
  claim6_companion_file_checks.2.2.2.2.2.2.2
    (fun _ => some (.obj [("a", .str "b")])) "spec" ⟨some "hello", some "x"⟩
    "hello" "x" (.obj [("a", .str "b")]) rfl (by decide) rfl rfl rfl

/-- Unfolding `ReachableIn` over the head entry of a mapping. -/
theorem reachableIn_cons (k : String) (v : Json) (rest : List (String × Json))
    (u : String) :
    ReachableIn ((k, v) :: rest) u ↔
      (v = .str u ∧ looks_like_url u = true) ∨
      (∃ kvs', v = .obj kvs' ∧ ReachableIn kvs' u) ∨ ReachableIn rest u := by
  constructor
  · intro h
    cases h with
    | here hm hl =>
      rcases List.mem_cons.mp hm with heq | hm2
      · injection heq with h1 h2
        exact Or.inl ⟨h2.symm, hl⟩
      · exact Or.inr (Or.inr (.here hm2 hl))
    | nest hm hr =>
      rcases List.mem_cons.mp hm with heq | hm2
      · injection heq with h1 h2
        exact Or.inr (Or.inl ⟨_, h2.symm, hr⟩)
      · exact Or.inr (Or.inr (.nest hm2 hr))
  · rintro (⟨rfl, hl⟩ | ⟨kvs', rfl, hr⟩ | h)
    · exact .here (List.mem_cons_self _ _) hl
    · exact .nest (List.mem_cons_self _ _) hr
    · cases h with
      | here hm hl => exact .here (List.mem_cons_of_mem _ hm) hl
      | nest hm hr => exact .nest (List.mem_cons_of_mem _ hm) hr

/-- A URL is collected by `process_dict` exactly when it is reachable
through mapping values only. -/
theorem mem_process_dict : ∀ (kvs : List (String × Json)) (u : String),
    u ∈ process_dict kvs ↔ ReachableIn kvs u
  | [], u => by
    constructor
    · intro h
      simp [process_dict] at h
    · intro h
      cases h with
      | here hm _ => simp at hm
      | nest hm _ => simp at hm
  | (k, Json.str s) :: rest, u => by
    rw [reachableIn_cons]
    have ih := mem_process_dict rest u
    by_cases hl : looks_like_url s = true
    · simp only [process_dict, hl, if_pos, List.mem_append, List.mem_singleton, ih]
      constructor
      · rintro (rfl | h)
        · exact Or.inl ⟨rfl, hl⟩
        · exact Or.inr (Or.inr h)
      · rintro (⟨hs, _⟩ | ⟨kvs', hk, _⟩ | h)
        · injection hs with hs
          exact Or.inl hs.symm
        · cases hk
        · exact Or.inr h
    · rw [Bool.not_eq_true] at hl
      simp only [process_dict, hl, Bool.false_eq_true, if_neg, List.nil_append,
        ih, not_false_iff]
      constructor
      · exact fun h => Or.inr (Or.inr h)
      · rintro (⟨hs, hu⟩ | ⟨kvs', hk, _⟩ | h)
        · injection hs with hs
          subst hs
          rw [hu] at hl
          cases hl
        · cases hk
        · exact h
  | (k, Json.obj kvs') :: rest, u => by
    rw [reachableIn_cons]
    have ih1 := mem_process_dict kvs' u
    have ih2 := mem_process_dict rest u
    simp only [process_dict, List.mem_append, ih1, ih2]
    constructor
    · rintro (h | h)
      · exact Or.inr (Or.inl ⟨kvs', rfl, h⟩)
      · exact Or.inr (Or.inr h)
    · rintro (⟨hs, _⟩ | ⟨kvs2, hk, h⟩ | h)
      · cases hs
      · injection hk with hk
        rw [hk]
        exact Or.inl h
      · exact Or.inr h
  | (k, Json.null) :: rest, u => by
    rw [reachableIn_cons]
    have ih := mem_process_dict rest u
    simp only [process_dict, ih]
    constructor
    · exact fun h => Or.inr (Or.inr h)
    · rintro (⟨hs, _⟩ | ⟨kvs', hk, _⟩ | h)
      · cases hs
      · cases hk
      · exact h
  | (k, Json.bool b) :: rest, u => by
    rw [reachableIn_cons]
    have ih := mem_process_dict rest u
    simp only [process_dict, ih]
    constructor
    · exact fun h => Or.inr (Or.inr h)
    · rintro (⟨hs, _⟩ | ⟨kvs', hk, _⟩ | h)
      · cases hs
      · cases hk
      · exact h
  | (k, Json.num n) :: rest, u => by
    rw [reachableIn_cons]
    have ih := mem_process_dict rest u
    simp only [process_dict, ih]
    constructor
    · exact fun h => Or.inr (Or.inr h)
    · rintro (⟨hs, _⟩ | ⟨kvs', hk, _⟩ | h)
      · cases hs
      · cases hk
      · exact h
  | (k, Json.arr xs) :: rest, u => by
    rw [reachableIn_cons]
    have ih := mem_process_dict rest u
    simp only [process_dict, ih]
    constructor
    · exact fun h => Or.inr (Or.inr h)
    · rintro (⟨hs, _⟩ | ⟨kvs', hk, _⟩ | h)
      · cases hs
      · cases hk
      · exact h

/-- Reachability only inspects membership of the top-level entry list, so
it transfers along permutations. -/
theorem reachableIn_of_perm {kvs kvs2 : List (String × Json)} {u : String}
    (h : List.Perm kvs kvs2) : ReachableIn kvs u → ReachableIn kvs2 u := by
  intro d
  cases d with
  | here hm hl => exact .here (h.subset hm) hl
  | nest hm hr => exact .nest (h.subset hm) hr

/-- Claim C7: for a companion document that parses to a mapping,
`find_urls_in_jsonld` returns the set of collected strings; a string
belongs to that set exactly when it is a URL-looking value reachable from
the top-level mapping through mapping values only (so values inside arrays
are never collected or traversed); and the set — being a set — is
deduplicated and invariant under reordering of the entries. -/
theorem claim7_find_urls_characterization :
    (∀ (parse : String → Option Json) (t : String) (kvs : List (String × Json)),
      parse t = some (.obj kvs) →
      find_urls_in_jsonld parse (some t) = .ok (process_dict kvs).toFinset) ∧
    (∀ (kvs : List (String × Json)) (u : String),
      u ∈ (process_dict kvs).toFinset ↔ ReachableIn kvs u) ∧
    (∀ kvs kvs2 : List (String × Json), List.Perm kvs kvs2 →
      (process_dict kvs).toFinset = (process_dict kvs2).toFinset) := by
  refine ⟨?_, ?_, ?_⟩
  · intro parse t kvs h
    simp [find_urls_in_jsonld, h]
  · intro kvs u
    rw [List.mem_toFinset]
    exact mem_process_dict kvs u
  · intro kvs kvs2 hperm
    ext u
    rw [List.mem_toFinset, List.mem_toFinset, mem_process_dict, mem_process_dict]
    exact ⟨reachableIn_of_perm hperm, reachableIn_of_perm hperm.symm⟩

/-- Witness for `claim7_find_urls_characterization`: swapping two keys (one
of them holding the same URL under a nested key) leaves the extracted set
unchanged. -/
theorem claim7_find_urls_characterization_witness :
    (process_dict [("a", Json.str "http://u.com"),
      ("b", Json.obj [("c", Json.str "http://u.com")])]).toFinset =
    (process_dict [("b", Json.obj [("c", Json.str "http://u.com")]),
      ("a", Json.str "http://u.com")]).toFinset :=
  claim7_find_urls_characterization.2.2
    [("a", Json.str "http://u.com"),
      ("b", Json.obj [("c", Json.str "http://u.com")])]
    [("b", Json.obj [("c", Json.str "http://u.com")]),
      ("a", Json.str "http://u.com")]
    (List.Perm.swap _ _ [])

/-- Claim C10: `collect_artifacts` returns, without raising, the singleton
mapping from the companion path to the URL set when the `.jsonld` file
exists, parses, and decodes to a mapping; it raises when the file is
missing, unparsable, or decodes to a non-mapping; and the walk silently
skips any value that is neither a string nor a mapping. -/
theorem claim10_collect_artifacts_safety :
    (∀ (parse : String → Option Json) (stem t : String)
        (kvs : List (String × Json)), parse t = some (.obj kvs) →
      collect_artifacts parse stem (some t) =
        .ok (stem ++ ".jsonld", (process_dict kvs).toFinset)) ∧
    (∀ (parse : String → Option Json) (stem : String),
      collect_artifacts parse stem none = .error .fileNotFoundError) ∧
    (∀ (parse : String → Option Json) (stem t : String), parse t = none →
      collect_artifacts parse stem (some t) = .error .jsonDecodeError) ∧
    (∀ (parse : String → Option Json) (stem t : String) (v : Json),
      parse t = some v → (∀ kvs, v ≠ .obj kvs) →
      collect_artifacts parse stem (some t) = .error .attributeError) ∧
    (∀ (k : String) (v : Json) (kvs : List (String × Json)),
      (∀ s, v ≠ Json.str s) → (∀ o, v ≠ Json.obj o) →
      process_dict ((k, v) :: kvs) = process_dict kvs) := by
  refine ⟨?_, ?_, ?_, ?_, ?_⟩
  · intro parse stem t kvs h
    simp [collect_artifacts, find_urls_in_jsonld, h]
  · intro parse stem
    rfl
  · intro parse stem t h
    simp [collect_artifacts, find_urls_in_jsonld, h]
  · intro parse stem t v h hv
    cases v with
    | obj kvs => exact absurd rfl (hv kvs)
    | null => simp [collect_artifacts, find_urls_in_jsonld, h]
    | bool b => simp [collect_artifacts, find_urls_in_jsonld, h]
    | num n => simp [collect_artifacts, find_urls_in_jsonld, h]
    | str s => simp [collect_artifacts, find_urls_in_jsonld, h]
    | arr xs => simp [collect_artifacts, find_urls_in_jsonld, h]
  · intro k v kvs hs ho
    cases v with
    | str s => exact absurd rfl (hs s)
    | obj o => exact absurd rfl (ho o)
    | null => simp [process_dict]
    | bool b => simp [process_dict]
    | num n => simp [process_dict]
    | arr xs => simp [process_dict]

/-- Witness for `claim10_collect_artifacts_safety` at a concrete document
holding a non-string, non-mapping value. -/
theorem claim10_collect_artifacts_safety_witness :
    collect_artifacts (fun _ => some (.obj [("a", .num 1)])) "spec" (some "txt") =
      .ok ("spec.jsonld", (process_dict [("a", Json.num 1)]).toFinset) :=
  claim10_collect_artifacts_safety.1 (fun _ => some (.obj [("a", .num 1)]))
    "spec" "txt" [("a", .num 1)] rfl

/-- Claim C3, counterexample: a document whose `openapi` field is the JSON
number `3` (not a string) makes `DefaultValidator.validate_spec` raise
`AttributeError` (from `(3).startswith`), not `UnsupportedVersion`, so the
claim's "for every other document ... it fails with UnsupportedVersion and
no other error" is false. -/
theorem claim3_counterexample :
    DefaultValidator.validate_spec (.obj [("openapi", .num 3)]) =
      .error .attributeError ∧
    PyErr.attributeError ≠ PyErr.unsupportedVersion :=
  ⟨rfl, by decide⟩

/-- Claim C3, amended: `DefaultValidator.validate_spec` raises
`UnsupportedVersion` iff the `openapi` field is missing or is a string not
beginning with `"3"`; it succeeds iff the field is a string beginning with
`"3"`; a present non-string `openapi` field instead raises the non-taxonomy
`AttributeError` (as does a non-mapping document). -/
theorem claim3_default_version_check (kvs : List (String × Json)) :
    (kvs.lookup "openapi" = none →
      DefaultValidator.validate_spec (.obj kvs) = .error .unsupportedVersion) ∧
    (∀ s, kvs.lookup "openapi" = some (.str s) →
      (DefaultValidator.validate_spec (.obj kvs) = .ok () ↔
        strStartsWith s "3" = true) ∧
      (DefaultValidator.validate_spec (.obj kvs) = .error .unsupportedVersion ↔
        strStartsWith s "3" = false)) ∧
    (∀ v, kvs.lookup "openapi" = some v → (∀ s, v ≠ .str s) →
      DefaultValidator.validate_spec (.obj kvs) = .error .attributeError) ∧
    (∀ j : Json, (∀ l, j ≠ .obj l) →
      DefaultValidator.validate_spec j = .error .attributeError) := by
  refine ⟨?_, ?_, ?_, ?_⟩
  · intro h
    simp [DefaultValidator.validate_spec, Py.getD, Py.startsWith, h, bind,
      Except.bind, strStartsWith, List.isPrefixOf, throw, throwThe,
      MonadExceptOf.throw, pure, Except.pure]
  · intro s h
    constructor
    · simp only [DefaultValidator.validate_spec, Py.getD, Py.startsWith, h,
        bind, Except.bind, throw, throwThe, MonadExceptOf.throw, pure,
        Except.pure, Option.getD]
      split <;> simp_all
    · simp only [DefaultValidator.validate_spec, Py.getD, Py.startsWith, h,
        bind, Except.bind, throw, throwThe, MonadExceptOf.throw, pure,
        Except.pure, Option.getD]
      split <;> simp_all
  · intro v h hv
    cases v <;> simp_all [DefaultValidator.validate_spec, Py.getD,
      Py.startsWith, h, bind, Except.bind, throw, throwThe,
      MonadExceptOf.throw, pure, Except.pure]
  · intro j hj
    cases j <;> simp_all [DefaultValidator.validate_spec, Py.getD, bind,
      Except.bind]

/-- Witness for `claim3_default_version_check` at a concrete document. -/
theorem claim3_default_version_check_witness :
    DefaultValidator.validate_spec (.obj [("openapi", .str "3.0.0")]) = .ok () :=
  ((claim3_default_version_check [("openapi", .str "3.0.0")]).2.1 "3.0.0"
    rfl).1.mpr rfl

/-- A lookup succeeds exactly when the key occurs in the key list. -/
theorem lookup_isSome_iff_mem_keys {β : Type} :
    ∀ (m : List (String × β)) (v : String),
    ((m.lookup v).isSome = true) ↔ v ∈ m.map Prod.fst
  | [], v => by simp
  | (k, b) :: rest, v => by
    by_cases h : v = k
    · subst h
      simp [List.lookup]
    · have hb : (v == k) = false := by simp [h]
      simp [List.lookup, hb, h, lookup_isSome_iff_mem_keys rest v]

/-- A lookup fails exactly when the key is absent from the key list. -/
theorem lookup_eq_none_iff_not_mem {β : Type} (m : List (String × β)) (v : String) :
    (m.lookup v = none) ↔ v ∉ m.map Prod.fst := by
  rw [← lookup_isSome_iff_mem_keys, ← Option.not_isSome_iff_eq_none]

/-- Lookup after the append-to-existing-entry branch of `add_ref`. -/
theorem lookup_map_adjust :
    ∀ (m : List (String × List String)) (u p v : String),
    ((m.map (fun e => if e.1 = u then (e.1, e.2 ++ [p]) else e)).lookup v) =
      if v = u then (m.lookup u).map (fun l => l ++ [p]) else m.lookup v
  | [], u, p, v => by simp
  | (k, l) :: rest, u, p, v => by
    have ih := lookup_map_adjust rest u p v
    by_cases hku : k = u
    · subst hku
      rw [List.map_cons, if_pos rfl]
      by_cases hvk : v = k
      · subst hvk
        simp [List.lookup]
      · have hb : (v == k) = false := by simp [hvk]
        simp only [List.lookup, hb]
        rw [ih]
        simp [hvk]
    · rw [List.map_cons, if_neg (by simpa using hku)]
      by_cases hvk : v = k
      · subst hvk
        simp [List.lookup, hku]
      · have hb : (v == k) = false := by simp [hvk]
        have hb2 : (u == k) = false := by
          rw [beq_eq_false_iff_ne]
          exact fun h => hku h.symm
        simp only [List.lookup, hb, hb2]
        exact ih

/-- Lookup after appending a fresh entry at the end. -/
theorem lookup_append_entry :
    ∀ (m : List (String × List String)) (u v : String) (l0 : List String),
    ((m ++ [(u, l0)]).lookup v) =
      (match m.lookup v with
      | some l => some l
      | none => if v = u then some l0 else none)
  | [], u, v, l0 => by
    by_cases h : v = u
    · subst h
      simp [List.lookup]
    · have hb : (v == u) = false := by simp [h]
      simp [List.lookup, hb, h]
  | (k, l) :: rest, u, v, l0 => by
    by_cases h : v = k
    · subst h
      simp [List.lookup]
    · have hb : (v == k) = false := by simp [h]
      simp only [List.cons_append, List.lookup, hb]
      exact lookup_append_entry rest u v l0

/-- One `defaultdict` append: the updated entry and all others. -/
theorem add_ref_lookup (m : List (String × List String)) (u p v : String) :
    (add_ref m u p).lookup v =
      if v = u then some (((m.lookup u).getD []) ++ [p]) else m.lookup v := by
  unfold add_ref
  by_cases hm : (m.lookup u).isSome = true
  · rw [if_pos hm, lookup_map_adjust]
    by_cases hv : v = u
    · subst hv
      rcases Option.isSome_iff_exists.mp hm with ⟨l, hl⟩
      simp [hl]
    · simp [hv]
  · rw [if_neg hm, lookup_append_entry]
    by_cases hv : v = u
    · subst hv
      have hn : m.lookup v = none := Option.not_isSome_iff_eq_none.mp hm
      simp [hn]
    · cases hml : m.lookup v with
      | none => simp [hv]
      | some l => simp [hv]

/-- The step `add_ref` appends the key only when it is new. -/
theorem add_ref_keys (m : List (String × List String)) (u p : String) :
    (add_ref m u p).map Prod.fst =
      if (m.lookup u).isSome = true then m.map Prod.fst
      else m.map Prod.fst ++ [u] := by
  unfold add_ref
  by_cases hm : (m.lookup u).isSome = true
  · rw [if_pos hm, if_pos hm, List.map_map]
    apply List.map_congr_left
    intro e he
    by_cases h : e.1 = u <;> simp [h]
  · rw [if_neg hm, if_neg hm, List.map_append]
    rfl

/-- The step `add_ref` preserves distinctness of the keys. -/
theorem add_ref_keys_nodup {m : List (String × List String)} {u p : String}
    (h : (m.map Prod.fst).Nodup) : ((add_ref m u p).map Prod.fst).Nodup := by
  rw [add_ref_keys]
  by_cases hm : (m.lookup u).isSome = true
  · simp [hm, h]
  · rw [if_neg hm]
    have hu : u ∉ m.map Prod.fst :=
      (lookup_eq_none_iff_not_mem m u).mp (Option.not_isSome_iff_eq_none.mp hm)
    rw [List.nodup_append]
    refine ⟨h, List.nodup_singleton u, ?_⟩
    intro x hx hxu
    rw [List.mem_singleton] at hxu
    exact hu (hxu ▸ hx)

/-- The per-entry URL loop as a fold over its append actions. -/
theorem entry_fold_eq (e : String × List String) (m : List (String × List String)) :
    e.2.foldl (fun m3 u => add_ref m3 u e.1) m =
      (e.2.map (fun u => (u, e.1))).foldl (fun m2 x => add_ref m2 x.1 x.2) m := by
  rw [List.foldl_map]

/-- The per-artifact loop as a fold over its append actions. -/
theorem artifact_fold_eq :
    ∀ (a : List (String × List String)) (m : List (String × List String)),
    a.foldl (fun m2 e => e.2.foldl (fun m3 u => add_ref m3 u e.1) m2) m =
      (a.flatMap (fun e => e.2.map (fun u => (u, e.1)))).foldl
        (fun m2 x => add_ref m2 x.1 x.2) m
  | [], m => by simp
  | e :: rest, m => by
    rw [List.foldl_cons, List.flatMap_cons, List.foldl_append, ← entry_fold_eq,
      artifact_fold_eq rest]

/-- The triple nested loop as a fold over the flattened action stream. -/
theorem batch_fold_eq :
    ∀ (artifacts : List (List (String × List String)))
      (m : List (String × List String)),
    artifacts.foldl
      (fun m2 a => a.foldl (fun m3 e => e.2.foldl (fun m4 u => add_ref m4 u e.1) m3) m2) m =
      (url_actions artifacts).foldl (fun m2 x => add_ref m2 x.1 x.2) m
  | [], m => by simp [url_actions]
  | a :: rest, m => by
    rw [List.foldl_cons, url_actions, List.flatMap_cons, List.foldl_append,
      ← artifact_fold_eq, batch_fold_eq rest]
    rfl

/-- The map `urls_to_jsonld` is the fold of `add_ref` over `url_actions`. -/
theorem urls_to_jsonld_eq_foldl (artifacts : List (List (String × List String))) :
    urls_to_jsonld artifacts =
      (url_actions artifacts).foldl (fun m2 x => add_ref m2 x.1 x.2) [] := by
  rw [urls_to_jsonld, batch_fold_eq]

/-- Each key of the built multimap holds exactly the paths appended for
it, in order. -/
theorem foldl_add_ref_lookup :
    ∀ (acts : List (String × String)) (m : List (String × List String)) (v : String),
    ((acts.foldl (fun m2 x => add_ref m2 x.1 x.2) m).lookup v) =
      (match m.lookup v with
       | some l => some (l ++ contrib v acts)
       | none => if contrib v acts = [] then none else some (contrib v acts))
  | [], m, v => by
    cases h : m.lookup v <;> simp [contrib, h]
  | (u, p) :: rest, m, v => by
    rw [List.foldl_cons, foldl_add_ref_lookup rest (add_ref m u p) v, add_ref_lookup]
    by_cases hv : v = u
    · subst hv
      have hc : contrib v ((v, p) :: rest) = p :: contrib v rest := by
        simp [contrib]
      rw [hc, if_pos rfl]
      cases h : m.lookup v with
      | some l => simp [h, List.append_assoc]
      | none => simp [h]
    · have hc : contrib v ((u, p) :: rest) = contrib v rest := by
        have hb : ((u, p).1 == v) = false := by
          rw [beq_eq_false_iff_ne]
          exact fun h => hv h.symm
        simp [contrib, hb]
      rw [hc, if_neg hv]

/-- The built multimap has distinct keys. -/
theorem foldl_add_ref_keys_nodup :
    ∀ (acts : List (String × String)) (m : List (String × List String)),
    (m.map Prod.fst).Nodup →
    (((acts.foldl (fun m2 x => add_ref m2 x.1 x.2) m).map Prod.fst)).Nodup
  | [], m, h => h
  | (u, p) :: rest, m, h => by
    rw [List.foldl_cons]
    exact foldl_add_ref_keys_nodup rest (add_ref m u p) (add_ref_keys_nodup h)

/-- A key occurs in the built multimap iff some action appends to it. -/
theorem foldl_add_ref_mem_keys
    (acts : List (String × String)) (m : List (String × List String)) (v : String) :
    v ∈ (acts.foldl (fun m2 x => add_ref m2 x.1 x.2) m).map Prod.fst ↔
      v ∈ m.map Prod.fst ∨ contrib v acts ≠ [] := by
  rw [← lookup_isSome_iff_mem_keys, foldl_add_ref_lookup]
  cases h : m.lookup v with
  | some l =>
    have hm : v ∈ m.map Prod.fst :=
      (lookup_isSome_iff_mem_keys m v).mp (by simp [h])
    simp [hm]
  | none =>
    have hm : v ∉ m.map Prod.fst := (lookup_eq_none_iff_not_mem m v).mp h
    by_cases hc : contrib v acts = [] <;> simp [hc, hm]

/-- Filtering a duplicate-free list by equality yields at most one hit. -/
theorem nodup_filter_beq :
    ∀ (l : List String) (u : String), l.Nodup →
      l.filter (fun x => x == u) = if u ∈ l then [u] else []
  | [], u, _ => by simp
  | a :: l, u, h => by
    rcases List.nodup_cons.mp h with ⟨ha, hl⟩
    by_cases hau : a = u
    · subst hau
      have hfl : l.filter (fun x => x == a) = [] := by
        rw [List.filter_eq_nil_iff]
        intro b hb
        simp only [beq_iff_eq]
        exact fun hba => ha (hba ▸ hb)
      simp [List.filter_cons, hfl]
    · have hb : (a == u) = false := by
        rw [beq_eq_false_iff_ne]; exact hau
      rw [List.filter_cons]
      simp only [hb, Bool.false_eq_true, if_neg, not_false_iff]
      rw [nodup_filter_beq l u hl]
      by_cases hm : u ∈ l
      · rw [if_pos hm, if_pos (List.mem_cons_of_mem a hm)]
      · rw [if_neg hm, if_neg ?_]
        intro hmem
        rcases List.mem_cons.mp hmem with hua | hul
        · exact hau hua.symm
        · exact hm hul

/-- The paths `contrib` distributes over concatenation of action streams. -/
theorem contrib_append (v : String) (l1 l2 : List (String × String)) :
    contrib v (l1 ++ l2) = contrib v l1 ++ contrib v l2 := by
  simp [contrib, List.filter_append]

/-- One artifact entry contributes its path once for a URL it contains. -/
theorem contrib_entry_actions (u : String) (e : String × List String)
    (hN : e.2.Nodup) :
    contrib u (e.2.map (fun u2 => (u2, e.1))) =
      if e.2.contains u then [e.1] else [] := by
  unfold contrib
  rw [List.filter_map]
  have hcomp : ((fun x : String × String => x.1 == u) ∘ (fun u2 => (u2, e.1))) =
      (fun x => x == u) := rfl
  rw [hcomp, nodup_filter_beq e.2 u hN]
  by_cases hm : u ∈ e.2
  · rw [if_pos hm, if_pos (List.elem_iff.mpr hm)]
    simp
  · rw [if_neg hm, if_neg (fun hc => hm (List.elem_iff.mp hc))]
    simp

/-- One artifact contributes the paths of its entries containing the URL. -/
theorem contrib_artifact (u : String) :
    ∀ (a : List (String × List String)), (∀ e ∈ a, e.2.Nodup) →
    contrib u (a.flatMap (fun e => e.2.map (fun u2 => (u2, e.1)))) =
      (a.filter (fun e => e.2.contains u)).map Prod.fst
  | [], _ => by simp [contrib]
  | e :: rest, hN => by
    rw [List.flatMap_cons, contrib_append,
      contrib_entry_actions u e (hN e (List.mem_cons_self e rest)),
      contrib_artifact u rest (fun e2 he2 => hN e2 (List.mem_cons_of_mem e he2))]
    rw [List.filter_cons]
    by_cases hc : e.2.contains u = true
    · rw [if_pos hc, if_pos hc, List.map_cons]
      rfl
    · rw [if_neg hc, if_neg hc]
      rfl

/-- Over duplicate-free URL sets, the appended paths for a URL are exactly
the referencing companion-file paths. -/
theorem contrib_url_actions (u : String) :
    ∀ (artifacts : List (List (String × List String))),
      (∀ a ∈ artifacts, ∀ e ∈ a, e.2.Nodup) →
    contrib u (url_actions artifacts) = referencing_paths u artifacts
  | [], _ => by simp [contrib, url_actions, referencing_paths]
  | a :: rest, hN => by
    rw [url_actions, referencing_paths, List.flatMap_cons, List.flatMap_cons,
      contrib_append, contrib_artifact u a (hN a (List.mem_cons_self a rest))]
    have ih := contrib_url_actions u rest
      (fun a2 ha2 => hN a2 (List.mem_cons_of_mem a ha2))
    rw [url_actions] at ih
    rw [referencing_paths] at ih
    rw [ih]

/-- String concatenation is empty iff both parts are. -/
theorem str_append_eq_empty_iff (a b : String) : a ++ b = "" ↔ a = "" ∧ b = "" := by
  constructor
  · intro h
    have hd := congrArg String.data h
    rw [String.data_append] at hd
    rcases List.append_eq_nil.mp hd with ⟨h1, h2⟩
    exact ⟨String.ext h1, String.ext h2⟩
  · rintro ⟨rfl, rfl⟩
    rfl

/-- A report line is never the empty string. -/
theorem fail_line_ne_empty (u : String) (ps : List String) :
    fail_line u ps ≠ "" := by
  unfold fail_line
  intro h
  have h2 := ((str_append_eq_empty_iff _ _).mp h).2
  exact absurd h2 (by decide)

/-- The probing loop always returns, accumulating the report text. -/
theorem probe_loop_eq {ε : Type} (probe : String → Except ε Unit) :
    ∀ (m : List (String × List String)) (acc : String),
    probe_loop probe m acc = .ok (acc ++ report_str probe m)
  | [], acc => by
    simp [probe_loop, report_str, String.append_empty]
  | (u, ps) :: rest, acc => by
    cases hp : probe u with
    | ok x =>
      simp [probe_loop, probe_step, hp, report_str,
        probe_loop_eq probe rest acc, String.empty_append]
    | error e =>
      simp [probe_loop, probe_step, hp, report_str,
        probe_loop_eq probe rest (acc ++ fail_line u ps), String.append_assoc]

/-- Every failing entry contributes its line to the report, wherever it
sits in the iteration. -/
theorem report_str_infix {ε : Type} (probe : String → Except ε Unit) :
    ∀ (m : List (String × List String)) (u : String) (ps : List String),
    (u, ps) ∈ m → probe_ok probe u = false →
    ∃ s1 s2, report_str probe m = s1 ++ (fail_line u ps ++ s2)
  | [], u, ps, hm, _ => by simp at hm
  | e :: rest, u, ps, hm, hfail => by
    rcases List.mem_cons.mp hm with heq | hm2
    · subst heq
      refine ⟨"", report_str probe rest, ?_⟩
      rw [report_str, String.empty_append]
      rw [probe_ok] at hfail
      cases hp : probe u with
      | ok x => rw [hp] at hfail; cases hfail
      | error ex => rfl
    · rcases report_str_infix probe rest u ps hm2 hfail with ⟨s1, s2, hs⟩
      refine ⟨(match probe e.1 with
        | .ok _ => ""
        | .error _ => fail_line e.1 e.2) ++ s1, s2, ?_⟩
      rw [report_str, hs, String.append_assoc]

/-- With distinct keys, membership determines the lookup result. -/
theorem lookup_of_mem_of_nodup {β : Type} :
    ∀ (m : List (String × β)), (m.map Prod.fst).Nodup →
    ∀ (u : String) (l : β), (u, l) ∈ m → m.lookup u = some l
  | [], _, u, l, hm => by simp at hm
  | (k, l0) :: rest, hnd, u, l, hm => by
    rw [List.map_cons] at hnd
    rcases List.nodup_cons.mp hnd with ⟨hk, hrest⟩
    rcases List.mem_cons.mp hm with heq | hm2
    · injection heq with h1 h2
      subst h1
      subst h2
      simp [List.lookup]
    · have hu : u ∈ rest.map Prod.fst := List.mem_map.mpr ⟨(u, l), hm2, rfl⟩
      have hne : u ≠ k := fun h => hk (h ▸ hu)
      have hb : (u == k) = false := by rw [beq_eq_false_iff_ne]; exact hne
      simp only [List.lookup, hb]
      exact lookup_of_mem_of_nodup rest hrest u l hm2

/-- The report is the concatenation of one line per failing key, with the
value each key holds. -/
theorem report_str_map {ε : Type} (probe : String → Except ε Unit)
    (f : String → List String) :
    ∀ (m : List (String × List String)), (∀ e ∈ m, e.2 = f e.1) →
    report_str probe m =
      str_concat (((m.map Prod.fst).filter (fun u => !probe_ok probe u)).map
        (fun u => fail_line u (f u)))
  | [], _ => by simp [report_str, str_concat]
  | e :: rest, hf => by
    have ih := report_str_map probe f rest
      (fun e2 he2 => hf e2 (List.mem_cons_of_mem e he2))
    rw [report_str, ih, List.map_cons, List.filter_cons]
    cases hp : probe e.1 with
    | ok x =>
      have hok : probe_ok probe e.1 = true := by rw [probe_ok, hp]
      rw [hok]
      simp [String.empty_append]
    | error ex =>
      have hok : probe_ok probe e.1 = false := by rw [probe_ok, hp]
      rw [hok]
      simp only [Bool.not_false, if_pos, List.map_cons]
      rw [hf e (List.mem_cons_self e rest)]
      rfl

/-- A URL has a referencing path iff some artifact entry contains it. -/
theorem referencing_paths_ne_nil_iff (u : String)
    (artifacts : List (List (String × List String))) :
    referencing_paths u artifacts ≠ [] ↔
      ∃ a ∈ artifacts, ∃ e ∈ a, u ∈ e.2 := by
  constructor
  · intro h
    rcases List.exists_mem_of_ne_nil _ h with ⟨p, hp⟩
    simp only [referencing_paths, List.mem_flatMap, List.mem_map,
      List.mem_filter] at hp
    obtain ⟨a, ha, e, ⟨he, hc⟩, hep⟩ := hp
    exact ⟨a, ha, e, he, List.elem_iff.mp hc⟩
  · rintro ⟨a, ha, e, he, hu⟩ hnil
    have hmem : e.1 ∈ referencing_paths u artifacts := by
      simp only [referencing_paths, List.mem_flatMap, List.mem_map,
        List.mem_filter]
      exact ⟨a, ha, e, ⟨he, List.elem_iff.mpr hu⟩, rfl⟩
    rw [hnil] at hmem
    simp at hmem

/-- Concatenating a non-empty list of non-empty lines is non-empty. -/
theorem str_concat_ne_empty (l : List String) (hne : l ≠ [])
    (hx : ∀ x ∈ l, x ≠ "") : str_concat l ≠ "" := by
  cases l with
  | nil => exact absurd rfl hne
  | cons x rest =>
    intro h
    have := ((str_append_eq_empty_iff _ _).mp h).1
    exact hx x (List.mem_cons_self x rest) this

/-- The batch hook `run_post_validation` returns `error_message or None`,
formed from the report
text of the probing loop. -/
theorem run_post_validation_eq {ε : Type} (probe : String → Except ε Unit)
    (artifacts : List (List (String × List String))) :
    run_post_validation probe artifacts =
      .ok (if report_str probe (urls_to_jsonld artifacts) = "" then none
        else some (report_str probe (urls_to_jsonld artifacts))) := by
  rw [run_post_validation, probe_loop_eq, String.empty_append]

/-- Claim C4: over artifacts whose URL sets are duplicate-free lists, the
inverted multimap probed by `run_post_validation` has distinct keys (each
distinct URL is probed exactly once), a URL is a key iff it occurs in some
artifact, each key holds exactly the companion-file paths whose artifacts
contain it (in artifact order), and the batch result equals the expected
report: `none` when no probe failed, otherwise one line per failing URL
naming it and the comma-joined referencing paths, with succeeding URLs
contributing no line. -/
theorem claim4_run_post_validation_aggregation (ε : Type) (probe : String → Except ε Unit)
    (artifacts : List (List (String × List String)))
    (hN : ∀ a ∈ artifacts, ∀ e ∈ a, e.2.Nodup) :
    (((urls_to_jsonld artifacts).map Prod.fst).Nodup) ∧
    (∀ u, u ∈ (urls_to_jsonld artifacts).map Prod.fst ↔
      ∃ a ∈ artifacts, ∃ e ∈ a, u ∈ e.2) ∧
    (∀ u, (urls_to_jsonld artifacts).lookup u =
      if referencing_paths u artifacts = [] then none
      else some (referencing_paths u artifacts)) ∧
    run_post_validation probe artifacts = .ok (expected_report probe artifacts) := by
  have knodup : ((urls_to_jsonld artifacts).map Prod.fst).Nodup := by
    rw [urls_to_jsonld_eq_foldl]
    exact foldl_add_ref_keys_nodup _ [] (by simp)
  have hlook : ∀ u, (urls_to_jsonld artifacts).lookup u =
      if referencing_paths u artifacts = [] then none
      else some (referencing_paths u artifacts) := by
    intro u
    rw [urls_to_jsonld_eq_foldl, foldl_add_ref_lookup,
      contrib_url_actions u artifacts hN]
    simp
  refine ⟨knodup, ?_, hlook, ?_⟩
  · intro u
    rw [urls_to_jsonld_eq_foldl, foldl_add_ref_mem_keys,
      contrib_url_actions u artifacts hN]
    simp [referencing_paths_ne_nil_iff]
  · have hm_eq : ∀ e ∈ urls_to_jsonld artifacts,
        e.2 = referencing_paths e.1 artifacts := by
      intro e he
      have hl := lookup_of_mem_of_nodup _ knodup e.1 e.2 he
      rw [hlook e.1] at hl
      by_cases hrn : referencing_paths e.1 artifacts = []
      · rw [if_pos hrn] at hl
        cases hl
      · rw [if_neg hrn] at hl
        injection hl with hl
        exact hl.symm
    have hrep := report_str_map probe (fun u => referencing_paths u artifacts)
      (urls_to_jsonld artifacts) hm_eq
    rw [run_post_validation_eq, hrep, expected_report]
    by_cases hf : ((urls_to_jsonld artifacts).map Prod.fst).filter
        (fun u => !probe_ok probe u) = []
    · rw [hf]
      simp [str_concat]
    · rw [if_neg hf, if_neg ?_]
      have hnl : (((urls_to_jsonld artifacts).map Prod.fst).filter
          (fun u => !probe_ok probe u)).map
          (fun u => fail_line u (referencing_paths u artifacts)) ≠ [] := by
        simp [hf]
      apply str_concat_ne_empty _ hnl
      intro x hx
      rcases List.mem_map.mp hx with ⟨u, _, rfl⟩
      exact fail_line_ne_empty _ _

/-- Claim C5: every exception of the injected fetch capability is caught
inside the loop: `run_post_validation` never returns an error, and every
URL whose probe raises — regardless of other failures before or after it —
still contributes its report line to the returned batch result. -/
theorem claim5_probe_failures_contained (ε : Type) (probe : String → Except ε Unit)
    (artifacts : List (List (String × List String))) :
    (∀ e0 : ε, run_post_validation probe artifacts ≠ .error e0) ∧
    (∀ u ps, (u, ps) ∈ urls_to_jsonld artifacts → probe_ok probe u = false →
      ∃ s1 s2, run_post_validation probe artifacts =
        .ok (some (s1 ++ (fail_line u ps ++ s2)))) := by
  constructor
  · intro e0
    rw [run_post_validation_eq]
    intro h
    cases h
  · intro u ps hm hfail
    rcases report_str_infix probe (urls_to_jsonld artifacts) u ps hm hfail with
      ⟨s1, s2, hs⟩
    refine ⟨s1, s2, ?_⟩
    rw [run_post_validation_eq, hs, if_neg ?_]
    intro h
    have h1 := ((str_append_eq_empty_iff _ _).mp h).2
    have h2 := ((str_append_eq_empty_iff _ _).mp h1).1
    exact fail_line_ne_empty u ps h2

/-- Witness for `claim4_run_post_validation_aggregation` on the spec's
round-trip example: `u1` shared by two files, `u2` in one, `u1` failing. -/
theorem claim4_run_post_validation_aggregation_witness :
    run_post_validation
      (fun u => if u = "u1" then Except.error "boom" else Except.ok ())
      [[("a.jsonld", ["u1"])], [("b.jsonld", ["u1", "u2"])]] =
      .ok (expected_report
        (fun u => if u = "u1" then Except.error "boom" else Except.ok ())
        [[("a.jsonld", ["u1"])], [("b.jsonld", ["u1", "u2"])]]) :=
  (claim4_run_post_validation_aggregation String (fun u => if u = "u1" then Except.error "boom" else Except.ok ())
    [[("a.jsonld", ["u1"])], [("b.jsonld", ["u1", "u2"])]] (by decide)).2.2.2

/-- Witness for `claim5_probe_failures_contained`: the failing URL's line
appears in the returned report. -/
theorem claim5_probe_failures_contained_witness :
    ∃ s1 s2, run_post_validation
      (fun u => if u = "u1" then Except.error "boom" else Except.ok ())
      [[("a.jsonld", ["u1"])], [("b.jsonld", ["u1", "u2"])]] =
      .ok (some (s1 ++ (fail_line "u1" ["a.jsonld", "b.jsonld"] ++ s2))) :=
  (claim5_probe_failures_contained String (fun u => if u = "u1" then Except.error "boom" else Except.ok ())
    [[("a.jsonld", ["u1"])], [("b.jsonld", ["u1", "u2"])]]).2
    "u1" ["a.jsonld", "b.jsonld"] (by decide) (by decide)

/-- Lookup through an association list split around one entry. -/
theorem lookup_append_cons {β : Type} :
    ∀ (pre : List (String × β)) (n k : String) (v : β) (post : List (String × β)),
    ((pre ++ (n, v) :: post).lookup k) =
      (match pre.lookup k with
       | some x => some x
       | none => if k = n then some v else post.lookup k)
  | [], n, k, v, post => by
    by_cases h : k = n
    · subst h
      simp [List.lookup]
    · have hb : (k == n) = false := by rw [beq_eq_false_iff_ne]; exact h
      simp [List.lookup, hb, h]
  | (k0, v0) :: pre, n, k, v, post => by
    by_cases h : k = k0
    · subst h
      simp [List.lookup]
    · have hb : (k == k0) = false := by rw [beq_eq_false_iff_ne]; exact h
      simp only [List.cons_append, List.lookup, hb]
      exact lookup_append_cons pre n k v post

/-- The lowered `name` value is unchanged by a case-variant renaming. -/
theorem name_chain_variant (pre post : List (String × Json)) (s t : String)
    (h : ascii_lower s = ascii_lower t) :
    ((Py.getD (.obj (pre ++ ("name", .str s) :: post)) "name" (.str "")) >>= Py.lower) =
      ((Py.getD (.obj (pre ++ ("name", .str t) :: post)) "name" (.str "")) >>= Py.lower) := by
  simp only [Py.getD, lookup_append_cons]
  cases hpre : pre.lookup "name" with
  | some x => simp
  | none => simp [bind, Except.bind, Py.lower, h]

/-- Congruence of `Except` bind in its continuation. -/
theorem except_bind_congr {ε α β : Type} (x : Except ε α) (f g : α → Except ε β)
    (h : ∀ a, f a = g a) : x >>= f = x >>= g := by
  cases x <;> simp [bind, Except.bind, h]

/-- One comprehension step depends only on the `in` value, the lowered
`name` value, and the rest of the parameters. -/
theorem header_names_cons_congr (p q : Json) (l1 l2 : List Json)
    (hin : Py.getOpt p "in" = Py.getOpt q "in")
    (hnm : ((Py.getD p "name" (.str "")) >>= Py.lower) =
      ((Py.getD q "name" (.str "")) >>= Py.lower))
    (ht : header_names l1 = header_names l2) :
    header_names (p :: l1) = header_names (q :: l2) := by
  simp only [header_names, ht, ← hin]
  refine except_bind_congr _ _ _ (fun inv => ?_)
  by_cases hih : opt_is_header inv = true
  · simp only [hih, if_pos]
    rw [← bind_assoc, ← bind_assoc, hnm]
  · rw [Bool.not_eq_true] at hih
    simp [hih]

/-- The header-name comprehension is invariant under case-variant
renamings of the parameters. -/
theorem header_names_variant :
    ∀ (params params2 : List Json), List.Forall₂ ParamCaseVariant params params2 →
    header_names params = header_names params2 := by
  intro params params2 hf
  induction hf with
  | nil => rfl
  | cons h hrest ih =>
    cases h with
    | refl => exact header_names_cons_congr _ _ _ _ rfl rfl ih
    | rename pre post s t hst =>
      refine header_names_cons_congr _ _ _ _ ?_ (name_chain_variant pre post s t hst) ih
      simp only [Py.getOpt, lookup_append_cons]
      simp

/-- The response and header checks depend on the parameters only through
`header_names`. -/
theorem response_and_headers_params_congr (pr : List (String × Json))
    (params params2 : List Json) (cs : Json)
    (hh : header_names params = header_names params2) :
    response_and_headers (.obj (("parameters", .arr params) :: pr)) cs =
      response_and_headers (.obj (("parameters", .arr params2) :: pr)) cs := by
  unfold response_and_headers
  simp only [Py.getD, Py.getOpt, Py.getItem, Py.toList, List.lookup, bind,
    Except.bind, pure, Except.pure, Option.getD]
  simp only [show ("responses" == "parameters") = false from rfl,
    show ("parameters" == "parameters") = true from rfl]
  simp only [hh]

/-- The post-route checks depend on the parameters only through
`header_names`. -/
theorem after_paths_params_congr (skvs pr : List (String × Json)) (x1 x2 : Json)
    (params params2 : List Json)
    (hh : header_names params = header_names params2) :
    after_paths (.obj (("paths", x1) :: skvs))
      (.obj (("parameters", .arr params) :: pr)) =
    after_paths (.obj (("paths", x2) :: skvs))
      (.obj (("parameters", .arr params2) :: pr)) := by
  unfold after_paths
  simp only [Py.getD, Py.getOpt, Py.getItem, List.lookup, bind, Except.bind,
    pure, Except.pure, Option.getD]
  simp only [show ("components" == "paths") = false from rfl,
    show ("requestBody" == "parameters") = false from rfl]
  simp only [response_and_headers_params_congr pr params params2 _ hh]

/-- Claim C9: the IHAN header check is invariant under letter case of
parameter names — replacing the names of any header-location parameters of
the POST operation by case variants yields the same `validate_spec`
outcome on the whole document; and parameters named any case variant of
`authorization` and `x-authorization-provider` produce exactly the two
required lowered header names, satisfying both header requirements. -/
theorem claim9_header_case_insensitive :
    (∀ (n : String) (skvs pr : List (String × Json)) (params params2 : List Json),
      List.Forall₂ ParamCaseVariant params params2 →
      validate_spec (spec_with_params n skvs pr params) =
        validate_spec (spec_with_params n skvs pr params2)) ∧
    (∀ s t : String, ascii_lower s = "authorization" →
      ascii_lower t = "x-authorization-provider" →
      header_names [.obj [("in", .str "header"), ("name", .str s)],
        .obj [("in", .str "header"), ("name", .str t)]] =
        .ok ["authorization", "x-authorization-provider"]) := by
  constructor
  · intro n skvs pr params params2 hv
    have hh := header_names_variant params params2 hv
    have hval : ∀ (ps : List Json),
        validate_spec (spec_with_params n skvs pr ps) =
          after_paths (spec_with_params n skvs pr ps)
            (.obj (("parameters", .arr ps) :: pr)) := by
      intro ps
      simp [validate_spec, spec_with_params, Py.getD, Py.len, Py.items,
        Py.toList, Py.getItem, paths_loop, is_exactly_post, Json.isStrEq,
        Json.truthy, bind, Except.bind, throw, throwThe, MonadExceptOf.throw,
        pure, Except.pure, List.lookup]
    rw [hval params, hval params2]
    exact after_paths_params_congr skvs pr _ _ params params2 hh
  · intro s t hs ht
    simp [header_names, Py.getOpt, Py.getD, Py.lower, opt_is_header,
      Json.isStrEq, List.lookup, bind, Except.bind, pure, Except.pure, hs, ht]

/-- Witness for `claim9_header_case_insensitive`: renaming `Authorization`
to `authorization` leaves the validation outcome unchanged. -/
theorem claim9_header_case_insensitive_witness :
    validate_spec (spec_with_params "/x" [] []
      [.obj [("in", .str "header"), ("name", .str "Authorization")]]) =
    validate_spec (spec_with_params "/x" [] []
      [.obj [("in", .str "header"), ("name", .str "authorization")]]) :=
  claim9_header_case_insensitive.1 "/x" [] [] _ _
    (List.Forall₂.cons
      (ParamCaseVariant.rename [("in", .str "header")] []
        "Authorization" "authorization" (by decide))
      List.Forall₂.nil)

end OpenapiToFastapi
